import Mathlib

/-!
Verification of the sinaraStabilizer server core
(src/stabilizer_server/server.py and src/stabilizer_server/mirror.py).

The development shallowly embeds three components:

* the filter design engine (class FilterLibrary together with
  StabilizerParameters): the analog prototype catalog, the digital biquad
  coefficients obtained from it by the bilinear transform, and the numeric
  evaluation entry point get_ba;
* the device control sequencer (class SinaraStabilizerServer): each remote
  method is modelled as the list of set calls it issues to the device, in
  order; an exception at the k-th write cuts the list after position k;
* the configuration mirror (class StabilizerMirror): update_subtree and get
  over a string-keyed tree, with Python exceptions modelled as Option and
  Except failures.

Python floats are modelled as rationals; sympy numeric evaluation failures
(complex infinity or NaN from a vanishing denominator, which float() cannot
convert) are modelled as a numeric-domain failure.  The derived symbolic
coefficients of each prototype (the output of FilterLibrary.get_ba_sym after
the substitutions s = 2/Ts * (1-q)/(1+q) and pi*f0*Ts = F0, simplification
and collection in q) are embedded as explicit expression trees; the real
analysis section at the end proves, for every prototype, that these trees
do represent the library transfer function composed with the bilinear
transform, so they are faithful to the source derivation.
-/

set_option maxHeartbeats 1000000

namespace SinaraStabilizer

/-- Python int() truncation toward zero on a rational, as in int(offset):
int() drops the fractional part, so int(-3.5) = -3; Int.tdiv is the
matching truncated division (Int division with / would floor instead). -/
def ratTrunc (q : ℚ) : Int := Int.tdiv q.num (q.den : Int)

namespace StabilizerParameters

/-- The fixed device sampling interval Ts = 128 / 100e6 (server.py line 47). -/
def Ts : ℚ := 128 / 100000000

end StabilizerParameters

/-- Symbolic coefficient expressions over the filter parameters; this mirrors
the sympy expression trees held by FilterLibrary.get_ba_sym. -/
inductive SExpr where
  | const (c : ℚ)
  | sym (s : String)
  | add (a b : SExpr)
  | sub (a b : SExpr)
  | mul (a b : SExpr)
  | neg (a : SExpr)
  | div (a b : SExpr)
deriving DecidableEq

namespace SExpr

/-- Free symbols of an expression (sympy expr.free_symbols). -/
def freeSyms : SExpr → List String
  | const _ => []
  | sym s => [s]
  | add a b => a.freeSyms ++ b.freeSyms
  | sub a b => a.freeSyms ++ b.freeSyms
  | mul a b => a.freeSyms ++ b.freeSyms
  | neg a => a.freeSyms
  | div a b => a.freeSyms ++ b.freeSyms

/-- Numeric evaluation at a parameter map (float(expr.evalf(subs=p))).
A missing symbol or a vanishing denominator yields none: sympy produces
zoo or nan there and float() cannot produce an ordinary number from it. -/
def evalO (f : String → Option ℚ) : SExpr → Option ℚ
  | const c => some c
  | sym s => f s
  | add a b => do pure ((← evalO f a) + (← evalO f b))
  | sub a b => do pure ((← evalO f a) - (← evalO f b))
  | mul a b => do pure ((← evalO f a) * (← evalO f b))
  | neg a => do pure (-(← evalO f a))
  | div a b => do
      let x ← evalO f a
      let y ← evalO f b
      if y = 0 then none else pure (x / y)

/-- An expression with no division node. -/
def divFree : SExpr → Bool
  | const _ => true
  | sym _ => true
  | add a b => a.divFree && b.divFree
  | sub a b => a.divFree && b.divFree
  | mul a b => a.divFree && b.divFree
  | neg a => a.divFree
  | div _ _ => false

end SExpr

/-- First-match lookup in an association list (Python dict read). -/
def lookupA {α : Type} : List (String × α) → String → Option α
  | [], _ => none
  | (k, v) :: rest, s => if k = s then some v else lookupA rest s

namespace FilterLibrary

/-- The gain symbol K. -/
def eK : SExpr := .sym ("K")

/-- The shape-factor symbol g. -/
def eg : SExpr := .sym ("g")

/-- The folded corner-frequency symbol F0 = pi * f0 * Ts. -/
def eF0 : SExpr := .sym ("F0")

/-- Numerator and denominator coefficients (orders 0, 1, 2 of q) of the
low-pass prototype K / (1 + s/(2 pi f0)) after the bilinear substitution:
b = K*F0 + K*F0*q, a = (F0+1) + (F0-1)*q. -/
def fracLP : List SExpr × List SExpr :=
  ([.mul eK eF0, .mul eK eF0, .const 0],
   [.add eF0 (.const 1), .sub eF0 (.const 1), .const 0])

/-- High-pass prototype K / (1 + 2 pi f0 / s):
b = K - K*q, a = (F0+1) + (F0-1)*q. -/
def fracHP : List SExpr × List SExpr :=
  ([eK, .neg eK, .const 0],
   [.add eF0 (.const 1), .sub eF0 (.const 1), .const 0])

/-- All-pass prototype K * (s/(2 pi f0) - 1) / (s/(2 pi f0) + 1):
b = K*(1-F0) - K*(1+F0)*q, a = (F0+1) + (F0-1)*q. -/
def fracAP : List SExpr × List SExpr :=
  ([.mul eK (.sub (.const 1) eF0), .neg (.mul eK (.add (.const 1) eF0)), .const 0],
   [.add eF0 (.const 1), .sub eF0 (.const 1), .const 0])

/-- Integrator prototype K * 2 pi f0 / s:
b = K*F0 + K*F0*q, a = 1 - q. -/
def fracI : List SExpr × List SExpr :=
  ([.mul eK eF0, .mul eK eF0, .const 0],
   [.const 1, .const (-1), .const 0])

/-- PI prototype K * (1 + s/(2 pi f0)) / (1/g + s/(2 pi f0)):
b = K*g*(F0+1) + K*g*(F0-1)*q, a = (F0+g) + (F0-g)*q. -/
def fracPI : List SExpr × List SExpr :=
  ([.mul (.mul eK eg) (.add eF0 (.const 1)), .mul (.mul eK eg) (.sub eF0 (.const 1)), .const 0],
   [.add eF0 eg, .sub eF0 eg, .const 0])

/-- Proportional prototype K: b = K, a = 1. -/
def fracP : List SExpr × List SExpr :=
  ([eK, .const 0, .const 0],
   [.const 1, .const 0, .const 0])

/-- PD prototype K * (1 + s/(2 pi f0)) / (1 + s/(2 pi f0 g)):
b = K*g*(F0+1) + K*g*(F0-1)*q, a = (g*F0+1) + (g*F0-1)*q. -/
def fracPD : List SExpr × List SExpr :=
  ([.mul (.mul eK eg) (.add eF0 (.const 1)), .mul (.mul eK eg) (.sub eF0 (.const 1)), .const 0],
   [.add (.mul eg eF0) (.const 1), .sub (.mul eg eF0) (.const 1), .const 0])

/-- The prototype catalog: for each name, the numerator and denominator
coefficient expressions of the bilinear-transformed transfer function,
collected in powers of q (orders 0, 1, 2).  Keys and order follow
FilterLibrary.library in server.py. -/
def library : List (String × (List SExpr × List SExpr)) :=
  [("LP", fracLP), ("HP", fracHP), ("AP", fracAP), ("I", fracI),
   ("PI", fracPI), ("P", fracP), ("PD", fracPD)]

/-- names = list(library.keys()). -/
def names : List String := library.map Prod.fst

/-- Catalog lookup; none models the KeyError raised by cls.library[name]. -/
def lookupLib (name : String) : Option (List SExpr × List SExpr) :=
  lookupA library name

/-- The normalization step of get_ba_sym: a0 = a.coeff(q, 0);
a_coeffs = [-a.coeff(q, n)/a0 for n in range(1, 3)];
b_coeffs = [b.coeff(q, n)/a0 for n in range(3)]; returns b_coeffs + a_coeffs. -/
def normalizeBA (ba : List SExpr × List SExpr) : List SExpr :=
  let b := ba.1
  let a := ba.2
  let a0 := a.getD 0 (.const 1)
  [.div (b.getD 0 (.const 0)) a0,
   .div (b.getD 1 (.const 0)) a0,
   .div (b.getD 2 (.const 0)) a0,
   .neg (.div (a.getD 1 (.const 0)) a0),
   .neg (.div (a.getD 2 (.const 0)) a0)]

/-- get_ba_sym: the five normalized symbolic coefficients for a prototype
name, or none for an unknown name (KeyError). -/
def get_ba_sym (name : String) : Option (List SExpr) :=
  (lookupLib name).map normalizeBA

/-- The union of free symbols of a coefficient list (line 98 of server.py);
kept as a list with possible duplicates, membership is what matters. -/
def symsOf (ba : List SExpr) : List String :=
  (ba.map SExpr.freeSyms).flatten

/-- Free symbols of the derived coefficients of a named prototype. -/
def symsOfName (name : String) : List String :=
  match get_ba_sym name with
  | some ba => symsOf ba
  | none => []

/-- Parameter-map lookup (params dict). -/
def lookupQ (params : List (String × ℚ)) (s : String) : Option ℚ :=
  lookupA params s

/-- Lines 96-97 of server.py: if the caller omitted Ts, add the fixed
device sampling interval to the parameter map. -/
def augmentTs (params : List (String × ℚ)) : List (String × ℚ) :=
  if lookupQ params ("Ts") = none then
    params ++ [("Ts", StabilizerParameters.Ts)]
  else params

/-- Evaluate every coefficient expression at the parameter map. -/
def evalAll (f : String → Option ℚ) : List SExpr → Option (List ℚ)
  | [] => some []
  | e :: es => do pure ((← SExpr.evalO f e) :: (← evalAll f es))

/-- The error taxonomy of the spec for the design-time failures of get_ba:
unknownPrototype models the KeyError of the catalog lookup, missingParameter
the KeyError of the parameter-map comprehension, numericDomainError a failed
float conversion of an undefined numeric evaluation. -/
inductive FilterError where
  | unknownPrototype
  | missingParameter
  | numericDomainError
deriving DecidableEq

/-- get_ba (server.py lines 93-100): derive the symbolic coefficients,
default Ts, require a value for every referenced symbol, then evaluate
all five coefficients to numbers. -/
def get_ba (name : String) (params : List (String × ℚ)) :
    Except FilterError (List ℚ) :=
  match get_ba_sym name with
  | none => .error .unknownPrototype
  | some ba =>
    let p := augmentTs params
    if (symsOf ba).all (fun s => (lookupQ p s).isSome) then
      match evalAll (lookupQ p) ba with
      | some l => .ok l
      | none => .error .numericDomainError
    else .error .missingParameter

/-- The zero-order denominator coefficient expression of a named prototype
(the a0 that get_ba_sym divides by). -/
def a0Of (name : String) : SExpr :=
  match lookupLib name with
  | some ba => ba.2.getD 0 (.const 1)
  | none => .const 1

/-- The unnormalized numerator coefficient expressions of a named prototype. -/
def fracBOf (name : String) : List SExpr :=
  match lookupLib name with
  | some ba => ba.1
  | none => []

/-- The unnormalized denominator coefficient expressions of a named
prototype. -/
def fracAOf (name : String) : List SExpr :=
  match lookupLib name with
  | some ba => ba.2
  | none => []

/-- The parameter map get_ba evaluates against: the caller mapping with the
sampling interval defaulted. -/
def paramsMap (params : List (String × ℚ)) : String → Option ℚ :=
  lookupQ (augmentTs params)

/-- Numeric values of the unnormalized numerator coefficients at a map. -/
def fracBVals (name : String) (f : String → Option ℚ) : List ℚ :=
  (fracBOf name).map (fun e => (SExpr.evalO f e).getD 0)

/-- Numeric values of the unnormalized denominator coefficients at a map. -/
def fracAVals (name : String) (f : String → Option ℚ) : List ℚ :=
  (fracAOf name).map (fun e => (SExpr.evalO f e).getD 0)

end FilterLibrary

/-! ## Device control sequencer

Each remote method of SinaraStabilizerServer is modelled as the ordered list
of miniconf set calls it issues.  The f-string topic paths are modelled by a
structured path type (one constructor per distinct path shape); send_signal
notifications and asyncio.sleep are not device writes and do not appear. -/

/-- The individually addressed fields of the Pid representation written by
set_pid_from_gui (paths /ch/{ch}/biquad/0/repr/Pid/...). -/
inductive PidField where
  | gainP
  | gainI
  | gainD
  | vmin
  | vmax
  | setpoint
  | limitI
deriving DecidableEq

/-- Remote configuration paths used by the server, one constructor per
f-string shape in server.py. -/
inductive DevPath where
  | run (ch : Nat)
  | typ (ch : Nat)
  | reprRaw (ch : Nat)
  | reprPid (ch : Nat)
  | pid (ch : Nat) (f : PidField)
  | stream
deriving DecidableEq

/-- The string form of each path, recording the f-strings of server.py. -/
def DevPath.toTopic : DevPath → String
  | .run ch => "/ch/" ++ toString ch ++ "/run"
  | .typ ch => "/ch/" ++ toString ch ++ "/biquad/0/typ"
  | .reprRaw ch => "/ch/" ++ toString ch ++ "/biquad/0/repr/Raw"
  | .reprPid ch => "/ch/" ++ toString ch ++ "/biquad/0/repr/Pid"
  | .pid ch .gainP => "/ch/" ++ toString ch ++ "/biquad/0/repr/Pid/gain/p"
  | .pid ch .gainI => "/ch/" ++ toString ch ++ "/biquad/0/repr/Pid/gain/i"
  | .pid ch .gainD => "/ch/" ++ toString ch ++ "/biquad/0/repr/Pid/gain/d"
  | .pid ch .vmin => "/ch/" ++ toString ch ++ "/biquad/0/repr/Pid/min"
  | .pid ch .vmax => "/ch/" ++ toString ch ++ "/biquad/0/repr/Pid/max"
  | .pid ch .setpoint => "/ch/" ++ toString ch ++ "/biquad/0/repr/Pid/setpoint"
  | .pid ch .limitI => "/ch/" ++ toString ch ++ "/biquad/0/repr/Pid/limit/i"
  | .stream => "/stream"

/-- Values transmitted in a set call: a string leaf, a float leaf, an int
leaf (a parameter value passed through unconverted), the combined Raw
payload dict, or the combined Pid payload dict. -/
inductive MsgVal where
  | str (s : String)
  | num (x : ℚ)
  | intv (n : Int)
  | rawPayload (ba : List ℚ) (u : Int) (lo hi : Int)
  | pidPayload (kp ki kd setpoint u : ℚ) (lo hi : Int)
deriving DecidableEq

/-- One remote write: await self._dev.set(path, value). -/
structure SetCall where
  path : DevPath
  value : MsgVal
deriving DecidableEq

/-- The server state the sequencer methods read: config.channel and the two
persisted voltage limits (guaranteed present by _load_config). -/
structure ServerCfg where
  channel : Nat
  low_voltage_limit : Int
  high_voltage_limit : Int
deriving DecidableEq

namespace SinaraStabilizerServer

/-- _make_raw_payload (lines 147-153): ba as floats, u = int(offset), and
the voltage limits, in one dict. -/
def make_raw_payload (st : ServerCfg) (ba : List ℚ) (offset : ℚ) : MsgVal :=
  .rawPayload ba (ratTrunc offset) st.low_voltage_limit st.high_voltage_limit

/-- _make_pid_payload (lines 155-164): all gains, setpoint, preload and
limits in one dict. -/
def make_pid_payload (st : ServerCfg) (kp ki kd setpoint preload : ℚ) : MsgVal :=
  .pidPayload kp ki kd setpoint preload st.low_voltage_limit st.high_voltage_limit

/-- apply_raw_filter (lines 169-174): typ=Raw, the combined Raw payload,
then run=Run. -/
def apply_raw_filter (st : ServerCfg) (ba : List ℚ) (offset : ℚ) : List SetCall :=
  [⟨.typ st.channel, .str ("Raw")⟩,
   ⟨.reprRaw st.channel, make_raw_payload st ba offset⟩,
   ⟨.run st.channel, .str ("Run")⟩]

/-- apply_pid (lines 179-185): run=Hold, typ=Pid, the combined Pid payload,
then run=Run. -/
def apply_pid (st : ServerCfg) (kp ki kd setpoint preload : ℚ) : List SetCall :=
  [⟨.run st.channel, .str ("Hold")⟩,
   ⟨.typ st.channel, .str ("Pid")⟩,
   ⟨.reprPid st.channel, make_pid_payload st kp ki kd setpoint preload⟩,
   ⟨.run st.channel, .str ("Run")⟩]

/-- set_pid_from_gui (lines 199-229): run=Hold, typ=Pid, then each gain,
limit, setpoint and integrator-preload field as its own set call, a settle
sleep (not a write), then run=Run.  preload defaults to 0.0 when None. -/
def set_pid_from_gui (st : ServerCfg) (Kp Ki Kd setpoint : ℚ)
    (preload : Option ℚ) : List SetCall :=
  [⟨.run st.channel, .str ("Hold")⟩,
   ⟨.typ st.channel, .str ("Pid")⟩,
   ⟨.pid st.channel .gainP, .num Kp⟩,
   ⟨.pid st.channel .gainI, .num Ki⟩,
   ⟨.pid st.channel .gainD, .num Kd⟩,
   ⟨.pid st.channel .vmin, .intv st.low_voltage_limit⟩,
   ⟨.pid st.channel .vmax, .intv st.high_voltage_limit⟩,
   ⟨.pid st.channel .setpoint, .num setpoint⟩,
   ⟨.pid st.channel .limitI, .num (preload.getD 0)⟩,
   ⟨.run st.channel, .str ("Run")⟩]

/-- design_and_apply_filter (lines 190-197): get_ba first; any design error
propagates before a single set call is issued.  The result pairs the Python
return or exception with the list of issued writes. -/
def design_and_apply_filter (st : ServerCfg) (filter_name : String)
    (params : List (String × ℚ)) :
    Except FilterLibrary.FilterError Unit × List SetCall :=
  match FilterLibrary.get_ba filter_name params with
  | .error e => (.error e, [])
  | .ok ba =>
      (.ok (), apply_raw_filter st ba ((FilterLibrary.lookupQ params ("offset")).getD 0))

end SinaraStabilizerServer

/-- If the k-th awaited set call raises, the writes after it are never
issued: the device saw at most the first k+1 writes. -/
def issuedTrace (prog : List SetCall) (k : Nat) : List SetCall :=
  prog.take (k + 1)

/-- Is this set call addressed to a run path (any channel)? -/
def isRunWrite : DevPath → Bool
  | .run _ => true
  | _ => false

/-- The sequence of values written to run paths, in order. -/
def runVals (tr : List SetCall) : List MsgVal :=
  (tr.filter (fun c => isRunWrite c.path)).map (fun c => c.value)

/-- Does the value combine several Pid fields into one message? -/
def isCombinedPid : MsgVal → Bool
  | .pidPayload _ _ _ _ _ _ _ => true
  | _ => false

/-- Does the value carry a combined Raw coefficient payload? -/
def isRawPayload : MsgVal → Bool
  | .rawPayload _ _ _ _ => true
  | _ => false

/-- The C1 write-ordering discipline of a PID transaction on channel ch:
the first write is run=Hold, the second selects the Pid filter type, the
very last write is run=Run, those two are the only run-state writes (so
every field write precedes the Run), and if the write at any position k
before the final one raises, the issued trace contains Hold as its only
run-state write — the device is left Held and no Run was ever sent. -/
def pidSeqOrdered (ch : Nat) (P : List SetCall) : Prop :=
  P.head? = some ⟨.run ch, .str ("Hold")⟩ ∧
  P[1]? = some ⟨.typ ch, .str ("Pid")⟩ ∧
  P.getLast? = some ⟨.run ch, .str ("Run")⟩ ∧
  runVals P = [.str ("Hold"), .str ("Run")] ∧
  ∀ k, k + 1 < P.length → runVals (issuedTrace P k) = [.str ("Hold")]

/-! ## Configuration mirror (mirror.py) -/

/-- Leaf values stored in the mirror tree. -/
inductive MirVal where
  | str (s : String)
  | num (x : ℚ)
  | boolv (b : Bool)
deriving DecidableEq

/-- A node of the mirrored configuration tree: a leaf value or a dict of
children in insertion order. -/
inductive JVal where
  | leaf (v : MirVal)
  | node (entries : List (String × JVal))

/-- The mirror state: the entries of the root dict self._tree. -/
abbrev MirrorTree := List (String × JVal)

/-- Dict read: first entry with the key. -/
def dictFind (t : MirrorTree) (k : String) : Option JVal :=
  lookupA t k

/-- Dict write: replace the first entry with the key in place, else append
(Python dict insertion-order semantics). -/
def dictSet : MirrorTree → String → JVal → MirrorTree
  | [], k, v => [(k, v)]
  | (k', v') :: rest, k, v =>
      if k' = k then (k', v) :: rest else (k', v') :: dictSet rest k v

/-- update_subtree on the already-coerced string path (mirror.py 17-21):
walk path[:-1] with setdefault, creating missing dicts; none models the
exceptions (IndexError on an empty path, the failure of setdefault or item
assignment on a non-dict intermediate).  On failure nothing was mutated,
because an existing leaf is hit before any dict is created on that branch. -/
def updatePath : List String → JVal → MirrorTree → Option MirrorTree
  | [], _, _ => none
  | [k], v, t => some (dictSet t k v)
  | k :: k2 :: rest, v, t =>
      match dictFind t k with
      | some (.leaf _) => none
      | some (.node sub) =>
          (updatePath (k2 :: rest) v sub).map (fun sub2 => dictSet t k (.node sub2))
      | none =>
          (updatePath (k2 :: rest) v []).map (fun sub2 => dictSet t k (.node sub2))

/-- Read errors of get: pathNotFound models the KeyError on a missing dict
key, notASubtree the TypeError of indexing into a stored leaf value. -/
inductive ReadError where
  | pathNotFound
  | notASubtree
deriving DecidableEq

/-- get on the already-coerced string path (mirror.py 23-27). -/
def getPath : List String → MirrorTree → Except ReadError JVal
  | [], t => .ok (.node t)
  | k :: rest, t =>
      match dictFind t k with
      | none => .error .pathNotFound
      | some v =>
          match rest, v with
          | [], _ => .ok v
          | _ :: _, .node sub => getPath rest sub
          | _ :: _, .leaf _ => .error .notASubtree

/-- Path segments as passed by callers: strings or integers. -/
inductive Seg where
  | str (v : String)
  | int (n : Int)
deriving DecidableEq

/-- str(key): the coercion applied to every segment by both methods. -/
def Seg.toStr : Seg → String
  | .str v => v
  | .int n => toString n

namespace StabilizerMirror

/-- update_subtree with the per-segment str() coercion. -/
def update_subtree (path : List Seg) (v : MirVal) (t : MirrorTree) :
    Option MirrorTree :=
  updatePath (path.map Seg.toStr) (.leaf v) t

/-- get with the per-segment str() coercion. -/
def get (t : MirrorTree) (path : List Seg) : Except ReadError JVal :=
  getPath (path.map Seg.toStr) t

end StabilizerMirror

/-! ## Real semantics of the derivation

FilterLibrary.library holds analog transfer functions in s; get_ba_sym
substitutes s = 2/Ts * (1-q)/(1+q) and pi*f0*Ts = F0, simplifies, and
splits the result into numerator and denominator polynomials in q.  The
following theorems certify the coefficient tables fracLP .. fracPD above:
for every prototype, evaluating the table over the reals reproduces the
library transfer function composed with the bilinear substitution. -/

/-- Real evaluation of a coefficient expression (total; division is the
Mathlib junk-value division, the lemmas below carry nonzero hypotheses). -/
noncomputable def SExpr.evalR (f : String → ℝ) : SExpr → ℝ
  | .const c => (c : ℝ)
  | .sym s => f s
  | .add a b => a.evalR f + b.evalR f
  | .sub a b => a.evalR f - b.evalR f
  | .mul a b => a.evalR f * b.evalR f
  | .neg a => -(a.evalR f)
  | .div a b => a.evalR f / b.evalR f

/-- The real parameter valuation assigning K, g and F0. -/
def valsR (K g F0 : ℝ) : String → ℝ := fun s =>
  if s = "K" then K else if s = "g" then g else if s = "F0" then F0 else 0

/-- Value of a collected coefficient list at q (orders 0, 1, 2). -/
noncomputable def polyEvalR (q : ℝ) (cs : List ℝ) : ℝ :=
  cs.getD 0 0 + cs.getD 1 0 * q + cs.getD 2 0 * q ^ 2

/-- Real value of the numerator of a fraction table at parameters and q. -/
noncomputable def fracNumR (fr : List SExpr × List SExpr) (K g F0 q : ℝ) : ℝ :=
  polyEvalR q (fr.1.map (SExpr.evalR (valsR K g F0)))

/-- Real value of the denominator of a fraction table at parameters and q. -/
noncomputable def fracDenR (fr : List SExpr × List SExpr) (K g F0 q : ℝ) : ℝ :=
  polyEvalR q (fr.2.map (SExpr.evalR (valsR K g F0)))

/-- The bilinear substitution s = 2/Ts * (1-q)/(1+q) (line 83). -/
noncomputable def bilinear (Ts q : ℝ) : ℝ := 2 / Ts * (1 - q) / (1 + q)

namespace FilterLibrary

/-- Library entry LP: K / (1 + s / (2*pi*f0)). -/
noncomputable def H_LP (K f0 s : ℝ) : ℝ := K / (1 + s / (2 * Real.pi * f0))

/-- Library entry HP: K / (1 + 2*pi*f0 / s). -/
noncomputable def H_HP (K f0 s : ℝ) : ℝ := K / (1 + 2 * Real.pi * f0 / s)

/-- Library entry AP: K * (s/(2*pi*f0) - 1) / (s/(2*pi*f0) + 1). -/
noncomputable def H_AP (K f0 s : ℝ) : ℝ :=
  K * (s / (2 * Real.pi * f0) - 1) / (s / (2 * Real.pi * f0) + 1)

/-- Library entry I: K * 2*pi*f0 / s. -/
noncomputable def H_I (K f0 s : ℝ) : ℝ := K * 2 * Real.pi * f0 / s

/-- Library entry PI: K * (1 + s/(2*pi*f0)) / (1/g + s/(2*pi*f0)). -/
noncomputable def H_PI (K g f0 s : ℝ) : ℝ :=
  K * (1 + s / (2 * Real.pi * f0)) / (1 / g + s / (2 * Real.pi * f0))

/-- Library entry P: K. -/
noncomputable def H_P (K _s : ℝ) : ℝ := K

/-- Library entry PD: K * (1 + s/(2*pi*f0)) / (1 + s/(2*pi*f0*g)). -/
noncomputable def H_PD (K g f0 s : ℝ) : ℝ :=
  K * (1 + s / (2 * Real.pi * f0)) / (1 + s / (2 * Real.pi * f0 * g))

/-- The fracLP table represents H_LP after the bilinear substitution, with
F0 = pi*f0*Ts. -/
theorem fracLP_represents (K g f0 Ts q : ℝ) (hf : f0 ≠ 0) (hTs : Ts ≠ 0)
    (hq : 1 + q ≠ 0) :
    H_LP K f0 (bilinear Ts q) =
      fracNumR fracLP K g (Real.pi * f0 * Ts) q /
        fracDenR fracLP K g (Real.pi * f0 * Ts) q := by
  have hpi := Real.pi_ne_zero
  have hF0 : Real.pi * f0 * Ts ≠ 0 := mul_ne_zero (mul_ne_zero hpi hf) hTs
  have hden : fracDenR fracLP K g (Real.pi * f0 * Ts) q =
      (Real.pi * f0 * Ts + 1) + (Real.pi * f0 * Ts - 1) * q := by
    simp [fracDenR, fracLP, polyEvalR, SExpr.evalR, valsR, eK, eg, eF0]
  have hnum : fracNumR fracLP K g (Real.pi * f0 * Ts) q =
      K * (Real.pi * f0 * Ts) + K * (Real.pi * f0 * Ts) * q := by
    simp [fracNumR, fracLP, polyEvalR, SExpr.evalR, valsR, eK, eg, eF0]
  rw [hden, hnum]
  have key : 1 + (bilinear Ts q) / (2 * Real.pi * f0) =
      ((Real.pi * f0 * Ts + 1) + (Real.pi * f0 * Ts - 1) * q) /
        ((Real.pi * f0 * Ts) * (1 + q)) := by
    unfold bilinear
    field_simp
    ring
  unfold H_LP
  rw [key, div_div_eq_mul_div]
  congr 1
  ring

/-- The fracHP table represents H_HP after the bilinear substitution. -/
theorem fracHP_represents (K g f0 Ts q : ℝ) (hf : f0 ≠ 0) (hTs : Ts ≠ 0)
    (hq : 1 + q ≠ 0) (hq1 : 1 - q ≠ 0) :
    H_HP K f0 (bilinear Ts q) =
      fracNumR fracHP K g (Real.pi * f0 * Ts) q /
        fracDenR fracHP K g (Real.pi * f0 * Ts) q := by
  have hpi := Real.pi_ne_zero
  have hden : fracDenR fracHP K g (Real.pi * f0 * Ts) q =
      (Real.pi * f0 * Ts + 1) + (Real.pi * f0 * Ts - 1) * q := by
    simp [fracDenR, fracHP, polyEvalR, SExpr.evalR, valsR, eK, eg, eF0]
  have hnum : fracNumR fracHP K g (Real.pi * f0 * Ts) q = K - K * q := by
    simp [fracNumR, fracHP, polyEvalR, SExpr.evalR, valsR, eK, eg, eF0]
    ring
  rw [hden, hnum]
  have key : 1 + 2 * Real.pi * f0 / (bilinear Ts q) =
      ((Real.pi * f0 * Ts + 1) + (Real.pi * f0 * Ts - 1) * q) / (1 - q) := by
    unfold bilinear
    field_simp
    ring
  unfold H_HP
  rw [key, div_div_eq_mul_div]
  congr 1
  ring

/-- The fracAP table represents H_AP after the bilinear substitution. -/
theorem fracAP_represents (K g f0 Ts q : ℝ) (hf : f0 ≠ 0) (hTs : Ts ≠ 0)
    (hq : 1 + q ≠ 0)
    (ha : fracDenR fracAP K g (Real.pi * f0 * Ts) q ≠ 0) :
    H_AP K f0 (bilinear Ts q) =
      fracNumR fracAP K g (Real.pi * f0 * Ts) q /
        fracDenR fracAP K g (Real.pi * f0 * Ts) q := by
  have hpi := Real.pi_ne_zero
  have hF0 : Real.pi * f0 * Ts ≠ 0 := mul_ne_zero (mul_ne_zero hpi hf) hTs
  have hden : fracDenR fracAP K g (Real.pi * f0 * Ts) q =
      (Real.pi * f0 * Ts + 1) + (Real.pi * f0 * Ts - 1) * q := by
    simp [fracDenR, fracAP, polyEvalR, SExpr.evalR, valsR, eK, eg, eF0]
  have hnum : fracNumR fracAP K g (Real.pi * f0 * Ts) q =
      K * (1 - Real.pi * f0 * Ts) - K * (1 + Real.pi * f0 * Ts) * q := by
    simp [fracNumR, fracAP, polyEvalR, SExpr.evalR, valsR, eK, eg, eF0]
    ring
  rw [hden, hnum]
  rw [hden] at ha
  have key : (bilinear Ts q) / (2 * Real.pi * f0) + 1 =
      ((Real.pi * f0 * Ts + 1) + (Real.pi * f0 * Ts - 1) * q) /
        ((Real.pi * f0 * Ts) * (1 + q)) := by
    unfold bilinear
    field_simp
    ring
  have hY : (bilinear Ts q) / (2 * Real.pi * f0) + 1 ≠ 0 := by
    rw [key]
    exact div_ne_zero ha (mul_ne_zero hF0 hq)
  unfold H_AP
  rw [div_eq_div_iff hY ha]
  unfold bilinear
  field_simp
  ring

/-- The fracI table represents H_I after the bilinear substitution. -/
theorem fracI_represents (K g f0 Ts q : ℝ) (hf : f0 ≠ 0) (hTs : Ts ≠ 0)
    (hq : 1 + q ≠ 0) (hq1 : 1 - q ≠ 0) :
    H_I K f0 (bilinear Ts q) =
      fracNumR fracI K g (Real.pi * f0 * Ts) q /
        fracDenR fracI K g (Real.pi * f0 * Ts) q := by
  have hpi := Real.pi_ne_zero
  have hden : fracDenR fracI K g (Real.pi * f0 * Ts) q = 1 - q := by
    simp [fracDenR, fracI, polyEvalR, SExpr.evalR, valsR, eK, eg, eF0]
    ring
  have hnum : fracNumR fracI K g (Real.pi * f0 * Ts) q =
      K * (Real.pi * f0 * Ts) + K * (Real.pi * f0 * Ts) * q := by
    simp [fracNumR, fracI, polyEvalR, SExpr.evalR, valsR, eK, eg, eF0]
  rw [hden, hnum]
  have hB : bilinear Ts q ≠ 0 := by
    unfold bilinear
    exact div_ne_zero (mul_ne_zero (div_ne_zero two_ne_zero hTs) hq1) hq
  unfold H_I
  rw [div_eq_div_iff hB hq1]
  unfold bilinear
  field_simp
  ring

/-- The fracPI table represents H_PI after the bilinear substitution. -/
theorem fracPI_represents (K g f0 Ts q : ℝ) (hf : f0 ≠ 0) (hg : g ≠ 0)
    (hTs : Ts ≠ 0) (hq : 1 + q ≠ 0)
    (ha : fracDenR fracPI K g (Real.pi * f0 * Ts) q ≠ 0) :
    H_PI K g f0 (bilinear Ts q) =
      fracNumR fracPI K g (Real.pi * f0 * Ts) q /
        fracDenR fracPI K g (Real.pi * f0 * Ts) q := by
  have hpi := Real.pi_ne_zero
  have hF0 : Real.pi * f0 * Ts ≠ 0 := mul_ne_zero (mul_ne_zero hpi hf) hTs
  have hden : fracDenR fracPI K g (Real.pi * f0 * Ts) q =
      (Real.pi * f0 * Ts + g) + (Real.pi * f0 * Ts - g) * q := by
    simp [fracDenR, fracPI, polyEvalR, SExpr.evalR, valsR, eK, eg, eF0]
  have hnum : fracNumR fracPI K g (Real.pi * f0 * Ts) q =
      K * g * (Real.pi * f0 * Ts + 1) + K * g * (Real.pi * f0 * Ts - 1) * q := by
    simp [fracNumR, fracPI, polyEvalR, SExpr.evalR, valsR, eK, eg, eF0]
  rw [hden, hnum]
  rw [hden] at ha
  have key : 1 / g + (bilinear Ts q) / (2 * Real.pi * f0) =
      ((Real.pi * f0 * Ts + g) + (Real.pi * f0 * Ts - g) * q) /
        (g * ((Real.pi * f0 * Ts) * (1 + q))) := by
    unfold bilinear
    field_simp
    ring
  have hY : 1 / g + (bilinear Ts q) / (2 * Real.pi * f0) ≠ 0 := by
    rw [key]
    exact div_ne_zero ha (mul_ne_zero hg (mul_ne_zero hF0 hq))
  unfold H_PI
  rw [div_eq_div_iff hY ha]
  unfold bilinear
  field_simp
  ring

/-- The fracP table represents H_P after the bilinear substitution. -/
theorem fracP_represents (K g F0 Ts q : ℝ) :
    H_P K (bilinear Ts q) = fracNumR fracP K g F0 q / fracDenR fracP K g F0 q := by
  simp [H_P, fracNumR, fracDenR, fracP, polyEvalR, SExpr.evalR, valsR, eK, eg, eF0]

/-- The fracPD table represents H_PD after the bilinear substitution. -/
theorem fracPD_represents (K g f0 Ts q : ℝ) (hf : f0 ≠ 0) (hg : g ≠ 0)
    (hTs : Ts ≠ 0) (hq : 1 + q ≠ 0)
    (ha : fracDenR fracPD K g (Real.pi * f0 * Ts) q ≠ 0) :
    H_PD K g f0 (bilinear Ts q) =
      fracNumR fracPD K g (Real.pi * f0 * Ts) q /
        fracDenR fracPD K g (Real.pi * f0 * Ts) q := by
  have hpi := Real.pi_ne_zero
  have hF0 : Real.pi * f0 * Ts ≠ 0 := mul_ne_zero (mul_ne_zero hpi hf) hTs
  have hden : fracDenR fracPD K g (Real.pi * f0 * Ts) q =
      (g * (Real.pi * f0 * Ts) + 1) + (g * (Real.pi * f0 * Ts) - 1) * q := by
    simp [fracDenR, fracPD, polyEvalR, SExpr.evalR, valsR, eK, eg, eF0]
  have hnum : fracNumR fracPD K g (Real.pi * f0 * Ts) q =
      K * g * (Real.pi * f0 * Ts + 1) + K * g * (Real.pi * f0 * Ts - 1) * q := by
    simp [fracNumR, fracPD, polyEvalR, SExpr.evalR, valsR, eK, eg, eF0]
  rw [hden, hnum]
  rw [hden] at ha
  have key : 1 + (bilinear Ts q) / (2 * Real.pi * f0 * g) =
      ((g * (Real.pi * f0 * Ts) + 1) + (g * (Real.pi * f0 * Ts) - 1) * q) /
        (g * ((Real.pi * f0 * Ts) * (1 + q))) := by
    unfold bilinear
    field_simp
    ring
  have hY : 1 + (bilinear Ts q) / (2 * Real.pi * f0 * g) ≠ 0 := by
    rw [key]
    exact div_ne_zero ha (mul_ne_zero hg (mul_ne_zero hF0 hq))
  unfold H_PD
  rw [div_eq_div_iff hY ha]
  unfold bilinear
  field_simp
  ring

end FilterLibrary

/-! ## Mirror lemmas -/

/-- A dict read after a dict write of the same key sees the written value. -/
theorem dictFind_dictSet_self (t : MirrorTree) (k : String) (v : JVal) :
    dictFind (dictSet t k v) k = some v := by
  induction t with
  | nil => simp [dictSet, dictFind, lookupA]
  | cons e rest ih =>
      obtain ⟨k', v'⟩ := e
      by_cases hk : k' = k
      · subst hk
        simp [dictSet, dictFind, lookupA]
      · simp only [dictSet, if_neg hk]
        simpa [dictFind, lookupA, hk] using ih

/-- Reading back a path just written by updatePath yields the new value. -/
theorem getPath_updatePath (ps : List String) (v : JVal) :
    ∀ t t2 : MirrorTree, updatePath ps v t = some t2 →
      getPath ps t2 = .ok v := by
  induction ps with
  | nil => intro t t2 h; simp [updatePath] at h
  | cons k rest ih =>
      intro t t2 h
      cases rest with
      | nil =>
          simp only [updatePath, Option.some.injEq] at h
          subst h
          simp [getPath, dictFind_dictSet_self]
      | cons k2 rest2 =>
          simp only [updatePath] at h
          cases hf : dictFind t k with
          | none =>
              rw [hf] at h
              obtain ⟨sub2, hsub, rfl⟩ := Option.map_eq_some'.mp h
              have hstep : getPath (k :: k2 :: rest2) (dictSet t k (JVal.node sub2)) =
                  getPath (k2 :: rest2) sub2 := by
                simp [getPath, dictFind_dictSet_self]
              rw [hstep]
              exact ih [] sub2 hsub
          | some w =>
              rw [hf] at h
              cases w with
              | leaf _ => simp at h
              | node sub =>
                  obtain ⟨sub2, hsub, rfl⟩ := Option.map_eq_some'.mp h
                  have hstep : getPath (k :: k2 :: rest2) (dictSet t k (JVal.node sub2)) =
                      getPath (k2 :: rest2) sub2 := by
                    simp [getPath, dictFind_dictSet_self]
                  rw [hstep]
                  exact ih sub sub2 hsub

/-- A second updatePath over a path that a first updatePath just created
always succeeds. -/
theorem updatePath_again (ps : List String) (v v2 : JVal) :
    ∀ t t1 : MirrorTree, updatePath ps v t = some t1 →
      ∃ t2, updatePath ps v2 t1 = some t2 := by
  induction ps with
  | nil => intro t t1 h; simp [updatePath] at h
  | cons k rest ih =>
      intro t t1 h
      cases rest with
      | nil => exact ⟨dictSet t1 k v2, rfl⟩
      | cons k2 rest2 =>
          simp only [updatePath] at h
          cases hf : dictFind t k with
          | none =>
              rw [hf] at h
              obtain ⟨sub1, hsub, rfl⟩ := Option.map_eq_some'.mp h
              obtain ⟨sub2, hsub2⟩ := ih [] sub1 hsub
              refine ⟨dictSet (dictSet t k (.node sub1)) k (.node sub2), ?_⟩
              simp [updatePath, dictFind_dictSet_self, hsub2]
          | some w =>
              rw [hf] at h
              cases w with
              | leaf _ => simp at h
              | node sub =>
                  obtain ⟨sub1, hsub, rfl⟩ := Option.map_eq_some'.mp h
                  obtain ⟨sub2, hsub2⟩ := ih sub sub1 hsub
                  refine ⟨dictSet (dictSet t k (.node sub1)) k (.node sub2), ?_⟩
                  simp [updatePath, dictFind_dictSet_self, hsub2]

/-- On a mirror where no node along the path exists yet, updatePath
succeeds by creating every intermediate subtree. -/
theorem updatePath_fresh (ps : List String) (v : JVal) (hne : ps ≠ []) :
    ∃ t2, updatePath ps v [] = some t2 := by
  induction ps with
  | nil => exact absurd rfl hne
  | cons k rest ih =>
      cases rest with
      | nil => exact ⟨[(k, v)], rfl⟩
      | cons k2 rest2 =>
          obtain ⟨sub2, hsub⟩ := ih (by simp)
          refine ⟨[(k, .node sub2)], ?_⟩
          simp [updatePath, dictFind, lookupA, hsub, dictSet]

/-- Reading any non-empty path from the empty mirror raises the missing-key
error. -/
theorem getPath_nil (k : String) (rest : List String) :
    getPath (k :: rest) [] = .error .pathNotFound := rfl

/-! ## Claim C8 -/

/-- C8 (amended): for every path p on which update_subtree (writeLocal)
succeeds — in particular on every non-empty path over a mirror where no
strict ancestor of p holds a leaf, and always from intermediate nodes it
creates as needed — a read of p returns the written value; a subsequent
update_subtree (applyRemoteUpdate) of the same path always succeeds and
overrides it; a read of a never-populated path fails with the
path-not-found error rather than returning a value. -/
theorem mirror_write_read_override (t t1 : MirrorTree) (p : List Seg)
    (v v2 : MirVal)
    (h : StabilizerMirror.update_subtree p v t = some t1) :
    StabilizerMirror.get t1 p = .ok (.leaf v) ∧
    (∃ t2, StabilizerMirror.update_subtree p v2 t1 = some t2 ∧
      StabilizerMirror.get t2 p = .ok (.leaf v2)) ∧
    (∀ p3 : List Seg, p3 ≠ [] →
      StabilizerMirror.get ([] : MirrorTree) p3 = .error .pathNotFound) ∧
    (∀ p4 : List Seg, p4 ≠ [] →
      ∃ t4, StabilizerMirror.update_subtree p4 v ([] : MirrorTree) = some t4) := by
  refine ⟨getPath_updatePath _ _ _ _ h, ?_, ?_, ?_⟩
  · obtain ⟨t2, h2⟩ := updatePath_again _ _ (.leaf v2) _ _ h
    exact ⟨t2, h2, getPath_updatePath _ _ _ _ h2⟩
  · intro p3 h3
    cases hp : p3.map Seg.toStr with
    | nil => exact absurd (List.map_eq_nil_iff.mp hp) h3
    | cons k rest =>
        unfold StabilizerMirror.get
        rw [hp]
        exact getPath_nil k rest
  · intro p4 h4
    apply updatePath_fresh
    intro hp
    exact h4 (List.map_eq_nil_iff.mp hp)

/-- C8 witness: a concrete successful round trip through the channel run
path, and the unpopulated-path failure at a concrete path. -/
theorem mirror_write_read_override_witness :
    StabilizerMirror.get
        [("ch", JVal.node [("0", JVal.node [("run", JVal.leaf (MirVal.str ("Hold")))])])]
        [Seg.str ("ch"), Seg.int 0, Seg.str ("run")] = .ok (.leaf (.str ("Hold"))) ∧
    StabilizerMirror.get ([] : MirrorTree) [Seg.str ("ch"), Seg.int 1, Seg.str ("run")] =
      .error .pathNotFound :=
  ⟨(mirror_write_read_override [] _ [Seg.str ("ch"), Seg.int 0, Seg.str ("run")]
      (.str ("Hold")) (.str ("Run")) rfl).1,
   (mirror_write_read_override [] _ [Seg.str ("ch"), Seg.int 0, Seg.str ("run")]
      (.str ("Hold")) (.str ("Run")) rfl).2.2.1
      [Seg.str ("ch"), Seg.int 1, Seg.str ("run")] (by decide)⟩

/-- C8 counterexample: the claim quantifies over any mirror, but on a mirror
holding a leaf value at a strict ancestor of the path, update_subtree raises
(setdefault on a non-dict) instead of creating the subtree, so the
write-then-read round trip promised by the claim does not happen. -/
theorem mirror_write_blocked_counterexample :
    ¬ ∃ t1, StabilizerMirror.update_subtree [Seg.str ("a"), Seg.str ("b")]
        (MirVal.num 7) [("a", JVal.leaf (MirVal.num 5))] = some t1 ∧
      StabilizerMirror.get t1 [Seg.str ("a"), Seg.str ("b")] =
        .ok (.leaf (.num 7)) := by
  intro hex
  obtain ⟨t1, h, -⟩ := hex
  rw [show StabilizerMirror.update_subtree [Seg.str ("a"), Seg.str ("b")]
      (MirVal.num 7) [("a", JVal.leaf (MirVal.num 5))] = none from rfl] at h
  cases h

/-! ## Claim C10 -/

/-- C10: both update_subtree and get coerce every path segment with str();
whenever a write through a path succeeds, a read through any
segment-wise string-equal path (for example integer 0 against the string
form of 0) returns the written value: both paths address the same node. -/
theorem mirror_segment_string_aliasing (t t1 : MirrorTree) (p p2 : List Seg)
    (v : MirVal)
    (hs : p.map Seg.toStr = p2.map Seg.toStr)
    (h : StabilizerMirror.update_subtree p v t = some t1) :
    StabilizerMirror.get t1 p2 = .ok (.leaf v) := by
  unfold StabilizerMirror.get
  rw [← hs]
  exact getPath_updatePath _ _ _ _ h

/-- C10 witness: writing through integer segment 0 and reading through the
string segment form of 0 on a fresh mirror returns the written value. -/
theorem mirror_segment_string_aliasing_witness :
    StabilizerMirror.get
        [("ch", JVal.node [("0", JVal.node [("run", JVal.leaf (MirVal.num 3))])])]
        [Seg.str ("ch"), Seg.str ("0"), Seg.str ("run")] = .ok (.leaf (.num 3)) :=
  mirror_segment_string_aliasing [] _
    [Seg.str ("ch"), Seg.int 0, Seg.str ("run")]
    [Seg.str ("ch"), Seg.str ("0"), Seg.str ("run")]
    (.num 3) (by rfl) rfl

/-! ## Claim C1 -/

/-- C1: both PID entry points, apply_pid and set_pid_from_gui, issue their
remote writes in the order run=Hold, then typ=Pid, then the gain, limit,
setpoint and preload field writes, and run=Run strictly last, with Run the
only write after the fields; if the write at any position before the final
Run raises, the issued trace contains no Run and its only (hence last)
run-state write is Hold. -/
theorem applyPID_write_ordering (st : ServerCfg) (kp ki kd sp pre : ℚ)
    (preOpt : Option ℚ) :
    pidSeqOrdered st.channel (SinaraStabilizerServer.apply_pid st kp ki kd sp pre) ∧
    pidSeqOrdered st.channel
      (SinaraStabilizerServer.set_pid_from_gui st kp ki kd sp preOpt) := by
  constructor
  · refine ⟨rfl, rfl, rfl, ?_, ?_⟩
    · simp [runVals, SinaraStabilizerServer.apply_pid, isRunWrite,
        SinaraStabilizerServer.make_pid_payload, List.filter]
    · intro k hk
      have hk2 : k < 3 := by
        simp [SinaraStabilizerServer.apply_pid] at hk
        omega
      interval_cases k <;>
        simp [runVals, issuedTrace, SinaraStabilizerServer.apply_pid, isRunWrite,
          SinaraStabilizerServer.make_pid_payload, List.filter]
  · refine ⟨rfl, rfl, rfl, ?_, ?_⟩
    · simp [runVals, SinaraStabilizerServer.set_pid_from_gui, isRunWrite,
        List.filter]
    · intro k hk
      have hk2 : k < 9 := by
        simp [SinaraStabilizerServer.set_pid_from_gui] at hk
        omega
      interval_cases k <;>
        simp [runVals, issuedTrace, SinaraStabilizerServer.set_pid_from_gui,
          isRunWrite, List.filter]

/-- C1 witness: on a concrete channel with concrete gains, a write failure
at position 2 of apply_pid and at position 8 of set_pid_from_gui each leave
Hold as the only run-state write issued. -/
theorem applyPID_write_ordering_witness :
    runVals (issuedTrace
      (SinaraStabilizerServer.apply_pid ⟨0, -6553, 6553⟩ 1 2 3 4 5) 2) =
      [.str ("Hold")] ∧
    runVals (issuedTrace
      (SinaraStabilizerServer.set_pid_from_gui ⟨0, -6553, 6553⟩ 1 2 3 4 none) 8) =
      [.str ("Hold")] :=
  ⟨(applyPID_write_ordering ⟨0, -6553, 6553⟩ 1 2 3 4 5 none).1.2.2.2.2 2 (by decide),
   (applyPID_write_ordering ⟨0, -6553, 6553⟩ 1 2 3 4 5 none).2.2.2.2.2 8 (by decide)⟩

/-! ## Claim C2 -/

/-- C2: apply_raw_filter issues exactly three writes — typ=Raw, then one
single set call whose payload combines all five coefficients, the int
offset and both saturation limits, then run=Run; the coefficients are never
split into field-by-field writes and no Hold command is issued. -/
theorem applyFilter_single_combined_write (st : ServerCfg) (ba : List ℚ)
    (offset : ℚ) (h : ba.length = 5) :
    SinaraStabilizerServer.apply_raw_filter st ba offset =
      [⟨.typ st.channel, .str ("Raw")⟩,
       ⟨.reprRaw st.channel,
        .rawPayload ba (ratTrunc offset) st.low_voltage_limit st.high_voltage_limit⟩,
       ⟨.run st.channel, .str ("Run")⟩] ∧
    ((SinaraStabilizerServer.apply_raw_filter st ba offset).filter
        (fun c => isRawPayload c.value)).length = 1 ∧
    (∀ c ∈ SinaraStabilizerServer.apply_raw_filter st ba offset,
      c.value ≠ .str ("Hold")) ∧
    (∀ c ∈ SinaraStabilizerServer.apply_raw_filter st ba offset,
      ∀ ba2 u lo hi, c.value = .rawPayload ba2 u lo hi → ba2.length = 5) := by
  refine ⟨rfl, ?_, ?_, ?_⟩
  · simp [SinaraStabilizerServer.apply_raw_filter, isRawPayload,
      SinaraStabilizerServer.make_raw_payload, List.filter]
  · intro c hc
    simp [SinaraStabilizerServer.apply_raw_filter,
      SinaraStabilizerServer.make_raw_payload] at hc
    rcases hc with h1 | h1 | h1 <;> subst h1 <;> simp
  · intro c hc ba2 u lo hi hval
    simp [SinaraStabilizerServer.apply_raw_filter,
      SinaraStabilizerServer.make_raw_payload] at hc
    rcases hc with h1 | h1 | h1 <;> subst h1 <;> simp_all

/-- C2 witness: a concrete five-coefficient upload. -/
theorem applyFilter_single_combined_write_witness :
    SinaraStabilizerServer.apply_raw_filter ⟨0, -6553, 6553⟩ [1, 2, 3, 4, 5] 0 =
      [⟨.typ 0, .str ("Raw")⟩,
       ⟨.reprRaw 0, .rawPayload [1, 2, 3, 4, 5] 0 (-6553) 6553⟩,
       ⟨.run 0, .str ("Run")⟩] ∧
    ((SinaraStabilizerServer.apply_raw_filter ⟨0, -6553, 6553⟩ [1, 2, 3, 4, 5] 0).filter
        (fun c => isRawPayload c.value)).length = 1 :=
  ⟨(applyFilter_single_combined_write ⟨0, -6553, 6553⟩ [1, 2, 3, 4, 5] 0 (by decide)).1,
   (applyFilter_single_combined_write ⟨0, -6553, 6553⟩ [1, 2, 3, 4, 5] 0 (by decide)).2.1⟩

/-! ## Claim C3 -/

/-- C3 counterexample: apply_pid does not write the PID values one field per
message — it transmits kp, ki, kd, setpoint and preload combined in the
single repr/Pid payload message, the only Pid-valued write of its trace. -/
theorem applyPid_combined_message_counterexample :
    SetCall.mk (.reprPid 0) (.pidPayload 1 2 3 4 5 (-6553) 6553) ∈
      SinaraStabilizerServer.apply_pid ⟨0, -6553, 6553⟩ 1 2 3 4 5 ∧
    ((SinaraStabilizerServer.apply_pid ⟨0, -6553, 6553⟩ 1 2 3 4 5).filter
        (fun c => isCombinedPid c.value)).length = 1 := by
  decide

/-- C3 (amended): set_pid_from_gui writes the PID gain, limit, setpoint and
preload values as separate individual set calls under the Pid sub-namespace,
one field per message, and none of its writes is a combined Pid payload
object; apply_pid, by contrast, sends the one combined payload exhibited by
the counterexample. -/
theorem setPidFromGui_individual_field_writes (st : ServerCfg)
    (Kp Ki Kd sp : ℚ) (preOpt : Option ℚ) :
    SinaraStabilizerServer.set_pid_from_gui st Kp Ki Kd sp preOpt =
      [⟨.run st.channel, .str ("Hold")⟩,
       ⟨.typ st.channel, .str ("Pid")⟩,
       ⟨.pid st.channel .gainP, .num Kp⟩,
       ⟨.pid st.channel .gainI, .num Ki⟩,
       ⟨.pid st.channel .gainD, .num Kd⟩,
       ⟨.pid st.channel .vmin, .intv st.low_voltage_limit⟩,
       ⟨.pid st.channel .vmax, .intv st.high_voltage_limit⟩,
       ⟨.pid st.channel .setpoint, .num sp⟩,
       ⟨.pid st.channel .limitI, .num (preOpt.getD 0)⟩,
       ⟨.run st.channel, .str ("Run")⟩] ∧
    ∀ c ∈ SinaraStabilizerServer.set_pid_from_gui st Kp Ki Kd sp preOpt,
      isCombinedPid c.value = false := by
  refine ⟨rfl, ?_⟩
  intro c hc
  simp [SinaraStabilizerServer.set_pid_from_gui] at hc
  rcases hc with h1 | h1 | h1 | h1 | h1 | h1 | h1 | h1 | h1 | h1 <;>
    subst h1 <;> rfl

/-! ## Claim C9 -/

/-- Association-list lookup misses exactly the keys that are absent. -/
theorem lookupA_eq_none_of_not_mem {α : Type} (l : List (String × α)) (s : String)
    (h : s ∉ l.map Prod.fst) : lookupA l s = none := by
  induction l with
  | nil => rfl
  | cons e rest ih =>
      obtain ⟨k, v⟩ := e
      simp only [List.map_cons, List.mem_cons] at h
      push_neg at h
      simp only [lookupA, if_neg (fun hk : k = s => h.1 hk.symm)]
      exact ih h.2

/-- C9: for a filter name outside the prototype catalog,
design_and_apply_filter fails with the unknown-prototype error raised by
the catalog lookup inside get_ba, and issues no remote set call at all:
the device state is untouched. -/
theorem unknown_prototype_no_side_effect (st : ServerCfg) (name : String)
    (params : List (String × ℚ)) (h : name ∉ FilterLibrary.names) :
    SinaraStabilizerServer.design_and_apply_filter st name params =
      (.error .unknownPrototype, ([] : List SetCall)) := by
  have hlook : FilterLibrary.lookupLib name = none :=
    lookupA_eq_none_of_not_mem _ _ h
  simp [SinaraStabilizerServer.design_and_apply_filter, FilterLibrary.get_ba,
    FilterLibrary.get_ba_sym, hlook]

/-- C9 witness: a concrete unknown filter name produces the error and an
empty write trace. -/
theorem unknown_prototype_no_side_effect_witness :
    SinaraStabilizerServer.design_and_apply_filter ⟨0, -6553, 6553⟩ ("BOGUS") [] =
      (.error .unknownPrototype, ([] : List SetCall)) :=
  unknown_prototype_no_side_effect ⟨0, -6553, 6553⟩ ("BOGUS") [] (by decide)

/-! ## Evaluation lemmas for get_ba -/

/-- A division-free coefficient expression evaluates successfully whenever
every symbol it references has a value. -/
theorem evalO_isSome_of_divFree (f : String → Option ℚ) :
    ∀ e : SExpr, e.divFree = true → (∀ s ∈ e.freeSyms, (f s).isSome) →
      ∃ x, SExpr.evalO f e = some x := by
  intro e
  induction e with
  | const c => exact fun _ _ => ⟨c, rfl⟩
  | sym s =>
      intro _ hs
      exact Option.isSome_iff_exists.mp (hs s (by simp [SExpr.freeSyms]))
  | add a b iha ihb =>
      intro hdf hs
      simp only [SExpr.divFree, Bool.and_eq_true] at hdf
      obtain ⟨x, hx⟩ := iha hdf.1 fun s hm => hs s (by simp [SExpr.freeSyms, hm])
      obtain ⟨y, hy⟩ := ihb hdf.2 fun s hm => hs s (by simp [SExpr.freeSyms, hm])
      exact ⟨x + y, by simp [SExpr.evalO, hx, hy]⟩
  | sub a b iha ihb =>
      intro hdf hs
      simp only [SExpr.divFree, Bool.and_eq_true] at hdf
      obtain ⟨x, hx⟩ := iha hdf.1 fun s hm => hs s (by simp [SExpr.freeSyms, hm])
      obtain ⟨y, hy⟩ := ihb hdf.2 fun s hm => hs s (by simp [SExpr.freeSyms, hm])
      exact ⟨x - y, by simp [SExpr.evalO, hx, hy]⟩
  | mul a b iha ihb =>
      intro hdf hs
      simp only [SExpr.divFree, Bool.and_eq_true] at hdf
      obtain ⟨x, hx⟩ := iha hdf.1 fun s hm => hs s (by simp [SExpr.freeSyms, hm])
      obtain ⟨y, hy⟩ := ihb hdf.2 fun s hm => hs s (by simp [SExpr.freeSyms, hm])
      exact ⟨x * y, by simp [SExpr.evalO, hx, hy]⟩
  | neg a iha =>
      intro hdf hs
      obtain ⟨x, hx⟩ := iha hdf fun s hm => hs s (by simp [SExpr.freeSyms, hm])
      exact ⟨-x, by simp [SExpr.evalO, hx]⟩
  | div a b iha ihb =>
      intro hdf
      simp [SExpr.divFree] at hdf

/-- Evaluation of the five normalized coefficients of a catalog entry: with
every referenced parameter supplied and a nonzero zero-order denominator
coefficient, get_ba returns exactly the quintuple of numerator coefficients
divided by a0 followed by the negated higher denominator coefficients
divided by a0. -/
theorem get_ba_eval_of_lookup (name : String) (b0 b1 b2 a0 a1 a2 : SExpr)
    (hlook : FilterLibrary.lookupLib name = some ([b0, b1, b2], [a0, a1, a2]))
    (hdf : ([b0, b1, b2, a0, a1, a2].all SExpr.divFree) = true)
    (params : List (String × ℚ))
    (hsyms : ∀ s ∈ FilterLibrary.symsOfName name,
      (FilterLibrary.lookupQ (FilterLibrary.augmentTs params) s).isSome)
    (ha0 : SExpr.evalO (FilterLibrary.lookupQ (FilterLibrary.augmentTs params))
      (FilterLibrary.a0Of name) ≠ some 0) :
    ∃ bv av : List ℚ,
      FilterLibrary.evalAll (FilterLibrary.lookupQ (FilterLibrary.augmentTs params))
        (FilterLibrary.fracBOf name) = some bv ∧
      FilterLibrary.evalAll (FilterLibrary.lookupQ (FilterLibrary.augmentTs params))
        (FilterLibrary.fracAOf name) = some av ∧
      FilterLibrary.get_ba name params = .ok
        [bv.getD 0 0 / av.getD 0 0, bv.getD 1 0 / av.getD 0 0,
         bv.getD 2 0 / av.getD 0 0,
         -(av.getD 1 0 / av.getD 0 0), -(av.getD 2 0 / av.getD 0 0)] ∧
      (∀ l, FilterLibrary.get_ba name params = .ok l → l.length = 5) := by
  simp only [List.all_cons, List.all_nil, Bool.and_eq_true, Bool.and_true] at hdf
  obtain ⟨hd0, hd1, hd2, hda0, hda1, hda2⟩ := hdf
  set f := FilterLibrary.lookupQ (FilterLibrary.augmentTs params) with hf
  have hba : FilterLibrary.get_ba_sym name = some
      [SExpr.div b0 a0, SExpr.div b1 a0, SExpr.div b2 a0,
       SExpr.neg (SExpr.div a1 a0), SExpr.neg (SExpr.div a2 a0)] := by
    simp [FilterLibrary.get_ba_sym, hlook, FilterLibrary.normalizeBA]
  have hsn : FilterLibrary.symsOfName name =
      FilterLibrary.symsOf
        [SExpr.div b0 a0, SExpr.div b1 a0, SExpr.div b2 a0,
         SExpr.neg (SExpr.div a1 a0), SExpr.neg (SExpr.div a2 a0)] := by
    simp [FilterLibrary.symsOfName, hba]
  have hsyms2 : ∀ s, (s ∈ b0.freeSyms ∨ s ∈ b1.freeSyms ∨ s ∈ b2.freeSyms ∨
      s ∈ a0.freeSyms ∨ s ∈ a1.freeSyms ∨ s ∈ a2.freeSyms) → (f s).isSome := by
    intro s hs
    apply hsyms
    rw [hsn]
    simp [FilterLibrary.symsOf, SExpr.freeSyms]
    tauto
  obtain ⟨bv0, he0⟩ := evalO_isSome_of_divFree f b0 hd0 fun s hm => hsyms2 s (by tauto)
  obtain ⟨bv1, he1⟩ := evalO_isSome_of_divFree f b1 hd1 fun s hm => hsyms2 s (by tauto)
  obtain ⟨bv2, he2⟩ := evalO_isSome_of_divFree f b2 hd2 fun s hm => hsyms2 s (by tauto)
  obtain ⟨av0, ha0e⟩ := evalO_isSome_of_divFree f a0 hda0 fun s hm => hsyms2 s (by tauto)
  obtain ⟨av1, ha1e⟩ := evalO_isSome_of_divFree f a1 hda1 fun s hm => hsyms2 s (by tauto)
  obtain ⟨av2, ha2e⟩ := evalO_isSome_of_divFree f a2 hda2 fun s hm => hsyms2 s (by tauto)
  have hav0 : av0 ≠ 0 := by
    intro h0
    apply ha0
    have : FilterLibrary.a0Of name = a0 := by simp [FilterLibrary.a0Of, hlook]
    rw [this, ha0e, h0]
  have hcond : (FilterLibrary.symsOf
      [SExpr.div b0 a0, SExpr.div b1 a0, SExpr.div b2 a0,
       SExpr.neg (SExpr.div a1 a0), SExpr.neg (SExpr.div a2 a0)]).all
      (fun s => (f s).isSome) = true := by
    rw [List.all_eq_true]
    intro s hs
    apply hsyms
    rw [hsn]
    exact hs
  have hget : FilterLibrary.get_ba name params = .ok
      [bv0 / av0, bv1 / av0, bv2 / av0, -(av1 / av0), -(av2 / av0)] := by
    simp only [FilterLibrary.get_ba, hba, ← hf]
    simp [hcond, FilterLibrary.evalAll, SExpr.evalO, he0, he1, he2, ha0e, ha1e,
      ha2e, hav0]
  refine ⟨[bv0, bv1, bv2], [av0, av1, av2], ?_, ?_, ?_, ?_⟩
  · simp [FilterLibrary.fracBOf, hlook, FilterLibrary.evalAll, he0, he1, he2]
  · simp [FilterLibrary.fracAOf, hlook, FilterLibrary.evalAll, ha0e, ha1e, ha2e]
  · simpa using hget
  · intro l hl
    rw [hget] at hl
    cases hl
    rfl

/-- A successful evalAll agrees with the value-map of the expression list. -/
theorem map_getD_of_evalAll (f : String → Option ℚ) :
    ∀ (es : List SExpr) (l : List ℚ), FilterLibrary.evalAll f es = some l →
      es.map (fun e => (SExpr.evalO f e).getD 0) = l := by
  intro es
  induction es with
  | nil =>
      intro l hl
      cases hl
      rfl
  | cons e rest ih =>
      intro l hl
      simp only [FilterLibrary.evalAll, Option.pure_def, Option.bind_eq_bind,
        Option.bind_eq_some] at hl
      obtain ⟨x, hx, xs, hxs, hl2⟩ := hl
      obtain rfl := Option.some.inj hl2
      simp [hx, ih xs hxs]

/-- Membership in a catalog with the key present yields a value. -/
theorem lookupA_isSome_of_mem {α : Type} (l : List (String × α)) (s : String)
    (h : s ∈ l.map Prod.fst) : ∃ v, lookupA l s = some v := by
  induction l with
  | nil => simp at h
  | cons e rest ih =>
      obtain ⟨k, v⟩ := e
      by_cases hk : k = s
      · exact ⟨v, by simp [lookupA, hk]⟩
      · have : s ∈ rest.map Prod.fst := by
          rcases List.mem_cons.mp h with h1 | h1
          · exact absurd h1.symm hk
          · exact h1
        obtain ⟨w, hw⟩ := ih this
        exact ⟨w, by simp [lookupA, hk, hw]⟩

/-- The catalog names resolve to membership in the seven prototypes. -/
theorem names_cases (name : String) (hname : name ∈ FilterLibrary.names) :
    name = "LP" ∨ name = "HP" ∨ name = "AP" ∨ name = "I" ∨ name = "PI" ∨
      name = "P" ∨ name = "PD" := by
  simpa [FilterLibrary.names, FilterLibrary.library] using hname

/-- Every symbol referenced by a derived coefficient list is one of K, g,
F0: in particular Ts never survives the derivation (it is folded into F0). -/
theorem symsOfName_subset (name : String) (hname : name ∈ FilterLibrary.names) :
    ∀ s ∈ FilterLibrary.symsOfName name, s ∈ ["K", "g", "F0"] := by
  rcases names_cases name hname with rfl | rfl | rfl | rfl | rfl | rfl | rfl <;> decide

/-! ## Claim C4 -/

/-- C4: for every prototype name in the catalog and every parameter mapping
that supplies a numeric value for each referenced symbol and makes the
zero-order denominator coefficient nonzero, get_ba returns exactly five
numbers: the three numerator coefficients divided by a0 followed by the
first- and second-order denominator coefficients negated and divided by a0
— the delivered denominator therefore has leading coefficient one. -/
theorem get_ba_normalized_quintuple (name : String)
    (hname : name ∈ FilterLibrary.names) (params : List (String × ℚ))
    (hsyms : ∀ s ∈ FilterLibrary.symsOfName name,
      (FilterLibrary.paramsMap params s).isSome)
    (ha0 : SExpr.evalO (FilterLibrary.paramsMap params)
      (FilterLibrary.a0Of name) ≠ some 0) :
    FilterLibrary.get_ba name params = .ok
      [(FilterLibrary.fracBVals name (FilterLibrary.paramsMap params)).getD 0 0 /
         (FilterLibrary.fracAVals name (FilterLibrary.paramsMap params)).getD 0 0,
       (FilterLibrary.fracBVals name (FilterLibrary.paramsMap params)).getD 1 0 /
         (FilterLibrary.fracAVals name (FilterLibrary.paramsMap params)).getD 0 0,
       (FilterLibrary.fracBVals name (FilterLibrary.paramsMap params)).getD 2 0 /
         (FilterLibrary.fracAVals name (FilterLibrary.paramsMap params)).getD 0 0,
       -((FilterLibrary.fracAVals name (FilterLibrary.paramsMap params)).getD 1 0 /
         (FilterLibrary.fracAVals name (FilterLibrary.paramsMap params)).getD 0 0),
       -((FilterLibrary.fracAVals name (FilterLibrary.paramsMap params)).getD 2 0 /
         (FilterLibrary.fracAVals name (FilterLibrary.paramsMap params)).getD 0 0)] ∧
    ((FilterLibrary.get_ba name params).toOption.getD []).length = 5 := by
  rcases names_cases name hname with rfl | rfl | rfl | rfl | rfl | rfl | rfl
  · obtain ⟨bv, av, hb, ha, hget, -⟩ :=
      get_ba_eval_of_lookup ("LP") _ _ _ _ _ _ rfl (by decide) params hsyms ha0
    have hbv := map_getD_of_evalAll _ _ _ hb
    have hav := map_getD_of_evalAll _ _ _ ha
    refine ⟨?_, ?_⟩
    · rw [show FilterLibrary.fracBVals _ (FilterLibrary.paramsMap params) = bv from hbv,
          show FilterLibrary.fracAVals _ (FilterLibrary.paramsMap params) = av from hav]
      exact hget
    · simp [hget, Except.toOption]
  · obtain ⟨bv, av, hb, ha, hget, -⟩ :=
      get_ba_eval_of_lookup ("HP") _ _ _ _ _ _ rfl (by decide) params hsyms ha0
    have hbv := map_getD_of_evalAll _ _ _ hb
    have hav := map_getD_of_evalAll _ _ _ ha
    refine ⟨?_, ?_⟩
    · rw [show FilterLibrary.fracBVals _ (FilterLibrary.paramsMap params) = bv from hbv,
          show FilterLibrary.fracAVals _ (FilterLibrary.paramsMap params) = av from hav]
      exact hget
    · simp [hget, Except.toOption]
  · obtain ⟨bv, av, hb, ha, hget, -⟩ :=
      get_ba_eval_of_lookup ("AP") _ _ _ _ _ _ rfl (by decide) params hsyms ha0
    have hbv := map_getD_of_evalAll _ _ _ hb
    have hav := map_getD_of_evalAll _ _ _ ha
    refine ⟨?_, ?_⟩
    · rw [show FilterLibrary.fracBVals _ (FilterLibrary.paramsMap params) = bv from hbv,
          show FilterLibrary.fracAVals _ (FilterLibrary.paramsMap params) = av from hav]
      exact hget
    · simp [hget, Except.toOption]
  · obtain ⟨bv, av, hb, ha, hget, -⟩ :=
      get_ba_eval_of_lookup ("I") _ _ _ _ _ _ rfl (by decide) params hsyms ha0
    have hbv := map_getD_of_evalAll _ _ _ hb
    have hav := map_getD_of_evalAll _ _ _ ha
    refine ⟨?_, ?_⟩
    · rw [show FilterLibrary.fracBVals _ (FilterLibrary.paramsMap params) = bv from hbv,
          show FilterLibrary.fracAVals _ (FilterLibrary.paramsMap params) = av from hav]
      exact hget
    · simp [hget, Except.toOption]
  · obtain ⟨bv, av, hb, ha, hget, -⟩ :=
      get_ba_eval_of_lookup ("PI") _ _ _ _ _ _ rfl (by decide) params hsyms ha0
    have hbv := map_getD_of_evalAll _ _ _ hb
    have hav := map_getD_of_evalAll _ _ _ ha
    refine ⟨?_, ?_⟩
    · rw [show FilterLibrary.fracBVals _ (FilterLibrary.paramsMap params) = bv from hbv,
          show FilterLibrary.fracAVals _ (FilterLibrary.paramsMap params) = av from hav]
      exact hget
    · simp [hget, Except.toOption]
  · obtain ⟨bv, av, hb, ha, hget, -⟩ :=
      get_ba_eval_of_lookup ("P") _ _ _ _ _ _ rfl (by decide) params hsyms ha0
    have hbv := map_getD_of_evalAll _ _ _ hb
    have hav := map_getD_of_evalAll _ _ _ ha
    refine ⟨?_, ?_⟩
    · rw [show FilterLibrary.fracBVals _ (FilterLibrary.paramsMap params) = bv from hbv,
          show FilterLibrary.fracAVals _ (FilterLibrary.paramsMap params) = av from hav]
      exact hget
    · simp [hget, Except.toOption]
  · obtain ⟨bv, av, hb, ha, hget, -⟩ :=
      get_ba_eval_of_lookup ("PD") _ _ _ _ _ _ rfl (by decide) params hsyms ha0
    have hbv := map_getD_of_evalAll _ _ _ hb
    have hav := map_getD_of_evalAll _ _ _ ha
    refine ⟨?_, ?_⟩
    · rw [show FilterLibrary.fracBVals _ (FilterLibrary.paramsMap params) = bv from hbv,
          show FilterLibrary.fracAVals _ (FilterLibrary.paramsMap params) = av from hav]
      exact hget
    · simp [hget, Except.toOption]

/-- C4 witness: the low-pass prototype at K = 1, F0 = 2. -/
theorem get_ba_normalized_quintuple_witness :
    FilterLibrary.get_ba ("LP") [("K", 1), ("F0", 2)] = .ok
      [(FilterLibrary.fracBVals ("LP") (FilterLibrary.paramsMap [("K", 1), ("F0", 2)])).getD 0 0 /
         (FilterLibrary.fracAVals ("LP") (FilterLibrary.paramsMap [("K", 1), ("F0", 2)])).getD 0 0,
       (FilterLibrary.fracBVals ("LP") (FilterLibrary.paramsMap [("K", 1), ("F0", 2)])).getD 1 0 /
         (FilterLibrary.fracAVals ("LP") (FilterLibrary.paramsMap [("K", 1), ("F0", 2)])).getD 0 0,
       (FilterLibrary.fracBVals ("LP") (FilterLibrary.paramsMap [("K", 1), ("F0", 2)])).getD 2 0 /
         (FilterLibrary.fracAVals ("LP") (FilterLibrary.paramsMap [("K", 1), ("F0", 2)])).getD 0 0,
       -((FilterLibrary.fracAVals ("LP") (FilterLibrary.paramsMap [("K", 1), ("F0", 2)])).getD 1 0 /
         (FilterLibrary.fracAVals ("LP") (FilterLibrary.paramsMap [("K", 1), ("F0", 2)])).getD 0 0),
       -((FilterLibrary.fracAVals ("LP") (FilterLibrary.paramsMap [("K", 1), ("F0", 2)])).getD 2 0 /
         (FilterLibrary.fracAVals ("LP") (FilterLibrary.paramsMap [("K", 1), ("F0", 2)])).getD 0 0)] ∧
    ((FilterLibrary.get_ba ("LP") [("K", 1), ("F0", 2)]).toOption.getD []).length = 5 :=
  get_ba_normalized_quintuple ("LP") (by decide) [("K", 1), ("F0", 2)]
    (by decide)
    (by norm_num [FilterLibrary.a0Of, FilterLibrary.lookupLib, FilterLibrary.library,
          FilterLibrary.fracLP, SExpr.evalO, FilterLibrary.paramsMap,
          FilterLibrary.lookupQ, FilterLibrary.augmentTs, lookupA, FilterLibrary.eF0,
          show ("K" : String) ≠ "F0" from by decide,
          show ("K" : String) ≠ "Ts" from by decide,
          show ("F0" : String) ≠ "Ts" from by decide])

/-! ## Claim C5 -/

/-- C5: the plain-proportional prototype P with gain K evaluates to the
quintuple b0 = K, b1 = b2 = a1 = a2 = 0, whether or not a sampling interval
is supplied, and independently of its value. -/
theorem get_ba_proportional (k ts : ℚ) :
    FilterLibrary.get_ba ("P") [("K", k)] = .ok [k, 0, 0, 0, 0] ∧
    FilterLibrary.get_ba ("P") [("K", k), ("Ts", ts)] = .ok [k, 0, 0, 0, 0] := by
  constructor <;>
    simp [FilterLibrary.get_ba, FilterLibrary.get_ba_sym, FilterLibrary.lookupLib,
      FilterLibrary.library, FilterLibrary.fracP, FilterLibrary.normalizeBA,
      FilterLibrary.symsOf, SExpr.freeSyms, FilterLibrary.evalAll, SExpr.evalO,
      FilterLibrary.augmentTs, FilterLibrary.lookupQ, lookupA, FilterLibrary.eK]

/-! ## Claim C6 -/

/-- C6 counterexample: evaluating the low-pass prototype at corner frequency
zero (the folded corner parameter F0 = pi*f0*Ts is 0 exactly when f0 = 0)
does not raise any error: get_ba happily returns the finite limiting
coefficients, and in particular no numeric-domain error is reported. -/
theorem get_ba_zero_corner_counterexample :
    FilterLibrary.get_ba ("LP") [("K", 1), ("F0", 0)] = .ok [0, 0, 0, 1, 0] ∧
    FilterLibrary.get_ba ("LP") [("K", 1), ("F0", 0)] ≠
      .error .numericDomainError := by
  have h1 : FilterLibrary.get_ba ("LP") [("K", 1), ("F0", 0)] =
      .ok [0, 0, 0, 1, 0] := by
    norm_num [FilterLibrary.get_ba, FilterLibrary.get_ba_sym, FilterLibrary.lookupLib,
      FilterLibrary.library, FilterLibrary.fracLP, FilterLibrary.normalizeBA,
      FilterLibrary.symsOf, SExpr.freeSyms, FilterLibrary.evalAll, SExpr.evalO,
      FilterLibrary.augmentTs, FilterLibrary.lookupQ, lookupA, FilterLibrary.eK,
      FilterLibrary.eF0,
      show ("K" : String) ≠ "F0" from by decide,
      show ("K" : String) ≠ "Ts" from by decide,
      show ("F0" : String) ≠ "Ts" from by decide]
  exact ⟨h1, fun h => Except.noConfusion (h1.symm.trans h)⟩

/-- C6 (amended): for every prototype in the catalog, evaluating at corner
frequency zero (F0 = 0, with any gain and a nonzero shape factor) does not
raise: no numeric-domain error occurs and a full finite quintuple is
returned — the derived normalized coefficients contain no division by the
corner frequency, so the degenerate corner produces well-defined limiting
coefficients instead of an error. -/
theorem get_ba_zero_corner_no_error (name : String)
    (hname : name ∈ FilterLibrary.names) (k g : ℚ) (hg : g ≠ 0) :
    FilterLibrary.get_ba name [("K", k), ("g", g), ("F0", 0)] ≠
      .error .numericDomainError ∧
    ((FilterLibrary.get_ba name [("K", k), ("g", g), ("F0", 0)]).toOption.getD
      []).length = 5 := by
  have hsyms : ∀ s ∈ FilterLibrary.symsOfName name,
      (FilterLibrary.paramsMap [("K", k), ("g", g), ("F0", 0)] s).isSome := by
    intro s hs
    have hs3 := symsOfName_subset name hname s hs
    simp only [List.mem_cons, List.not_mem_nil, or_false] at hs3
    rcases hs3 with rfl | rfl | rfl <;>
      simp [FilterLibrary.paramsMap, FilterLibrary.lookupQ,
        FilterLibrary.augmentTs, lookupA]
  rcases names_cases name hname with rfl | rfl | rfl | rfl | rfl | rfl | rfl
  · obtain ⟨bv, av, hb, ha, hget, -⟩ :=
      get_ba_eval_of_lookup ("LP") _ _ _ _ _ _ rfl (by decide)
        [("K", k), ("g", g), ("F0", 0)] hsyms
        (by simp [FilterLibrary.a0Of, FilterLibrary.lookupLib, FilterLibrary.library,
              FilterLibrary.fracLP, FilterLibrary.fracHP, FilterLibrary.fracAP,
              FilterLibrary.fracI, FilterLibrary.fracPI, FilterLibrary.fracP,
              FilterLibrary.fracPD, SExpr.evalO, FilterLibrary.paramsMap,
              FilterLibrary.lookupQ, FilterLibrary.augmentTs, lookupA,
              FilterLibrary.eK, FilterLibrary.eg, FilterLibrary.eF0, hg])
    exact ⟨fun h => Except.noConfusion (hget.symm.trans h),
      by simp [hget, Except.toOption]⟩
  · obtain ⟨bv, av, hb, ha, hget, -⟩ :=
      get_ba_eval_of_lookup ("HP") _ _ _ _ _ _ rfl (by decide)
        [("K", k), ("g", g), ("F0", 0)] hsyms
        (by simp [FilterLibrary.a0Of, FilterLibrary.lookupLib, FilterLibrary.library,
              FilterLibrary.fracLP, FilterLibrary.fracHP, FilterLibrary.fracAP,
              FilterLibrary.fracI, FilterLibrary.fracPI, FilterLibrary.fracP,
              FilterLibrary.fracPD, SExpr.evalO, FilterLibrary.paramsMap,
              FilterLibrary.lookupQ, FilterLibrary.augmentTs, lookupA,
              FilterLibrary.eK, FilterLibrary.eg, FilterLibrary.eF0, hg])
    exact ⟨fun h => Except.noConfusion (hget.symm.trans h),
      by simp [hget, Except.toOption]⟩
  · obtain ⟨bv, av, hb, ha, hget, -⟩ :=
      get_ba_eval_of_lookup ("AP") _ _ _ _ _ _ rfl (by decide)
        [("K", k), ("g", g), ("F0", 0)] hsyms
        (by simp [FilterLibrary.a0Of, FilterLibrary.lookupLib, FilterLibrary.library,
              FilterLibrary.fracLP, FilterLibrary.fracHP, FilterLibrary.fracAP,
              FilterLibrary.fracI, FilterLibrary.fracPI, FilterLibrary.fracP,
              FilterLibrary.fracPD, SExpr.evalO, FilterLibrary.paramsMap,
              FilterLibrary.lookupQ, FilterLibrary.augmentTs, lookupA,
              FilterLibrary.eK, FilterLibrary.eg, FilterLibrary.eF0, hg])
    exact ⟨fun h => Except.noConfusion (hget.symm.trans h),
      by simp [hget, Except.toOption]⟩
  · obtain ⟨bv, av, hb, ha, hget, -⟩ :=
      get_ba_eval_of_lookup ("I") _ _ _ _ _ _ rfl (by decide)
        [("K", k), ("g", g), ("F0", 0)] hsyms
        (by simp [FilterLibrary.a0Of, FilterLibrary.lookupLib, FilterLibrary.library,
              FilterLibrary.fracLP, FilterLibrary.fracHP, FilterLibrary.fracAP,
              FilterLibrary.fracI, FilterLibrary.fracPI, FilterLibrary.fracP,
              FilterLibrary.fracPD, SExpr.evalO, FilterLibrary.paramsMap,
              FilterLibrary.lookupQ, FilterLibrary.augmentTs, lookupA,
              FilterLibrary.eK, FilterLibrary.eg, FilterLibrary.eF0, hg])
    exact ⟨fun h => Except.noConfusion (hget.symm.trans h),
      by simp [hget, Except.toOption]⟩
  · obtain ⟨bv, av, hb, ha, hget, -⟩ :=
      get_ba_eval_of_lookup ("PI") _ _ _ _ _ _ rfl (by decide)
        [("K", k), ("g", g), ("F0", 0)] hsyms
        (by simp [FilterLibrary.a0Of, FilterLibrary.lookupLib, FilterLibrary.library,
              FilterLibrary.fracLP, FilterLibrary.fracHP, FilterLibrary.fracAP,
              FilterLibrary.fracI, FilterLibrary.fracPI, FilterLibrary.fracP,
              FilterLibrary.fracPD, SExpr.evalO, FilterLibrary.paramsMap,
              FilterLibrary.lookupQ, FilterLibrary.augmentTs, lookupA,
              FilterLibrary.eK, FilterLibrary.eg, FilterLibrary.eF0, hg])
    exact ⟨fun h => Except.noConfusion (hget.symm.trans h),
      by simp [hget, Except.toOption]⟩
  · obtain ⟨bv, av, hb, ha, hget, -⟩ :=
      get_ba_eval_of_lookup ("P") _ _ _ _ _ _ rfl (by decide)
        [("K", k), ("g", g), ("F0", 0)] hsyms
        (by simp [FilterLibrary.a0Of, FilterLibrary.lookupLib, FilterLibrary.library,
              FilterLibrary.fracLP, FilterLibrary.fracHP, FilterLibrary.fracAP,
              FilterLibrary.fracI, FilterLibrary.fracPI, FilterLibrary.fracP,
              FilterLibrary.fracPD, SExpr.evalO, FilterLibrary.paramsMap,
              FilterLibrary.lookupQ, FilterLibrary.augmentTs, lookupA,
              FilterLibrary.eK, FilterLibrary.eg, FilterLibrary.eF0, hg])
    exact ⟨fun h => Except.noConfusion (hget.symm.trans h),
      by simp [hget, Except.toOption]⟩
  · obtain ⟨bv, av, hb, ha, hget, -⟩ :=
      get_ba_eval_of_lookup ("PD") _ _ _ _ _ _ rfl (by decide)
        [("K", k), ("g", g), ("F0", 0)] hsyms
        (by simp [FilterLibrary.a0Of, FilterLibrary.lookupLib, FilterLibrary.library,
              FilterLibrary.fracLP, FilterLibrary.fracHP, FilterLibrary.fracAP,
              FilterLibrary.fracI, FilterLibrary.fracPI, FilterLibrary.fracP,
              FilterLibrary.fracPD, SExpr.evalO, FilterLibrary.paramsMap,
              FilterLibrary.lookupQ, FilterLibrary.augmentTs, lookupA,
              FilterLibrary.eK, FilterLibrary.eg, FilterLibrary.eF0, hg])
    exact ⟨fun h => Except.noConfusion (hget.symm.trans h),
      by simp [hget, Except.toOption]⟩

/-- C6 (amended) witness: the PI prototype at K = 1, g = 2, F0 = 0. -/
theorem get_ba_zero_corner_no_error_witness :
    FilterLibrary.get_ba ("PI") [("K", 1), ("g", 2), ("F0", 0)] ≠
      .error .numericDomainError ∧
    ((FilterLibrary.get_ba ("PI") [("K", 1), ("g", 2), ("F0", 0)]).toOption.getD
      []).length = 5 :=
  get_ba_zero_corner_no_error ("PI") (by decide) 1 2 (by decide)

/-! ## Claim C7 -/

/-- Appending the defaulted Ts entry at the back of a map without a Ts key
reads the same as putting it at the front. -/
theorem lookupQ_append_Ts (v : ℚ) :
    ∀ (params : List (String × ℚ)) (s : String),
      FilterLibrary.lookupQ params ("Ts") = none →
      FilterLibrary.lookupQ (params ++ [("Ts", v)]) s =
        FilterLibrary.lookupQ (("Ts", v) :: params) s := by
  intro params
  induction params with
  | nil => intro s _; rfl
  | cons e rest ih =>
      intro s hTs
      obtain ⟨k, w⟩ := e
      have hkTs : k ≠ "Ts" := by
        intro hk
        simp [FilterLibrary.lookupQ, lookupA, hk] at hTs
      have hrest : FilterLibrary.lookupQ rest ("Ts") = none := by
        simpa [FilterLibrary.lookupQ, lookupA, hkTs] using hTs
      by_cases hks : k = s
      · subst hks
        have hTsk : ("Ts" : String) ≠ k := fun h => hkTs h.symm
        simp [FilterLibrary.lookupQ, lookupA, hTsk]
      · have hih := ih s hrest
        simp only [FilterLibrary.lookupQ, lookupA, List.cons_append,
          if_neg hks] at hih ⊢
        exact hih

/-- get_ba only reads the parameter mapping through the defaulted lookup. -/
theorem get_ba_congr (name : String) (p1 p2 : List (String × ℚ))
    (h : ∀ s, FilterLibrary.lookupQ (FilterLibrary.augmentTs p1) s =
      FilterLibrary.lookupQ (FilterLibrary.augmentTs p2) s) :
    FilterLibrary.get_ba name p1 = FilterLibrary.get_ba name p2 := by
  have hfun : FilterLibrary.lookupQ (FilterLibrary.augmentTs p1) =
      FilterLibrary.lookupQ (FilterLibrary.augmentTs p2) := funext h
  simp only [FilterLibrary.get_ba, hfun]

/-- C7: get_ba defaults the sampling-interval parameter: Ts is the fixed
device value 128/100e6, a mapping omitting the Ts key behaves exactly as
the same mapping with the device Ts supplied; and whenever some symbol
referenced by the derived coefficients has no value in the defaulted
mapping, get_ba fails with the missing-parameter error instead of
returning coefficients. -/
theorem get_ba_ts_default_and_missing_parameter :
    StabilizerParameters.Ts = 128 / 100000000 ∧
    (∀ (name : String) (params : List (String × ℚ)),
      FilterLibrary.lookupQ params ("Ts") = none →
      FilterLibrary.get_ba name params =
        FilterLibrary.get_ba name (("Ts", StabilizerParameters.Ts) :: params)) ∧
    (∀ name ∈ FilterLibrary.names, ∀ params : List (String × ℚ),
      (∃ s ∈ FilterLibrary.symsOfName name,
        FilterLibrary.paramsMap params s = none) →
      FilterLibrary.get_ba name params = .error .missingParameter) := by
  refine ⟨rfl, ?_, ?_⟩
  · intro name params hTs
    apply get_ba_congr
    intro s
    have hL : FilterLibrary.augmentTs params =
        params ++ [("Ts", StabilizerParameters.Ts)] := by
      simp [FilterLibrary.augmentTs, hTs]
    have hR : FilterLibrary.augmentTs (("Ts", StabilizerParameters.Ts) :: params) =
        ("Ts", StabilizerParameters.Ts) :: params := by
      simp [FilterLibrary.augmentTs, FilterLibrary.lookupQ, lookupA]
    rw [hL, hR]
    exact lookupQ_append_Ts _ params s hTs
  · intro name hname params hmiss
    obtain ⟨s, hsmem, hsnone⟩ := hmiss
    obtain ⟨fr, hfr⟩ := lookupA_isSome_of_mem FilterLibrary.library name hname
    have hsym : FilterLibrary.get_ba_sym name =
        some (FilterLibrary.normalizeBA fr) := by
      simp [FilterLibrary.get_ba_sym, FilterLibrary.lookupLib, hfr]
    have hmem2 : s ∈ FilterLibrary.symsOf (FilterLibrary.normalizeBA fr) := by
      have hrw : FilterLibrary.symsOfName name =
          FilterLibrary.symsOf (FilterLibrary.normalizeBA fr) := by
        simp [FilterLibrary.symsOfName, hsym]
      rwa [hrw] at hsmem
    have hcond : (FilterLibrary.symsOf (FilterLibrary.normalizeBA fr)).all
        (fun s2 => (FilterLibrary.lookupQ (FilterLibrary.augmentTs params)
          s2).isSome) = false := by
      rw [List.all_eq_false]
      refine ⟨s, hmem2, ?_⟩
      simp [show FilterLibrary.lookupQ (FilterLibrary.augmentTs params) s = none
        from hsnone]
    simp only [FilterLibrary.get_ba, hsym]
    rw [hcond]
    simp

/-- C7 witness: the low-pass prototype with only K supplied behaves as if
the device Ts had been supplied, and fails with the missing-parameter
error since its corner-frequency symbol F0 has no value. -/
theorem get_ba_ts_default_and_missing_parameter_witness :
    FilterLibrary.get_ba ("LP") [("K", 1)] =
      FilterLibrary.get_ba ("LP") [("Ts", StabilizerParameters.Ts), ("K", 1)] ∧
    FilterLibrary.get_ba ("LP") [("K", 1)] = .error .missingParameter :=
  ⟨get_ba_ts_default_and_missing_parameter.2.1 ("LP") [("K", 1)] (by decide),
   get_ba_ts_default_and_missing_parameter.2.2 ("LP") (by decide) [("K", 1)]
     ⟨"F0", by decide, by decide⟩⟩

end SinaraStabilizer
